import Mathlib

/-!
# Submission, polling and outcome rendering of `index.js`

A shallow embedding of the command-line entry point `src/index.js`: argument
validation, the metadata collector, the single `publish` call, the optional
`poll` call with its `onStatusUpdate` callback, the terminal report `printCLI`
and the non-polling notice `logFormattedSimulation`.

The libraries the script imports (`minimist`, `lightlytics-publisher-core`,
`cli-table3`, `@colors/colors`) and the built-in number conversions are not part
of the script.  Pure library functions are fields of `Env`; what the remote
collaborators do during one run (the result of `publish`, the statuses `poll`
hands to the callback, a failure of `poll`) is a `World`.  The effects of a run
that the script controls are collected in an `Outcome`.

Command-line values are the scalars and arrays `minimist` produces.  Statuses
and violations have the field types of the data model: a label and a nullable
conclusion string; an integer severity, string category and name, a
non-negative count and a boolean `fail_simulation`.  Every test the script
writes as a bare condition (`if (x)`, `x ? a : b`, `!x`) is a truthiness test
and is embedded as one.
-/

set_option autoImplicit false
set_option maxRecDepth 100000

namespace Lightlytics

/-! ## JavaScript values -/

/-- A JavaScript number: `NaN`, an infinity, or the finite value `m * 2 ^ e`
(every finite double has this shape).  The script never computes with numbers;
it only tests them for truthiness, converts them to text and passes them on. -/
inductive JSNum where
  | nan
  | inf (negative : Bool)
  | fin (m : Int) (e : Int)
  deriving DecidableEq

/-- Truthiness of a number: `0`, `-0` and `NaN` are falsy. -/
def JSNum.truthy : JSNum → Bool
  | .nan => false
  | .inf _ => true
  | .fin m _ => m != 0

/-- The number denoted by a non-negative integer literal of the script. -/
def JSNum.ofNat (n : Nat) : JSNum := .fin (Int.ofNat n) 0

/-- A scalar value in the object that `minimist` returns. -/
inductive Scalar where
  | bool (b : Bool)
  | num (n : JSNum)
  | str (s : String)
  deriving DecidableEq

/-- A value in the object that `minimist` returns: a scalar, or an array of
scalars (the positional list `_`, or a flag that was given several times). -/
inductive ArgVal where
  | scalar (v : Scalar)
  | arr (vs : List Scalar)
  deriving DecidableEq

/-- A JavaScript object with values of type `α`, as the list of its own
properties in insertion order (keys pairwise distinct). -/
abbrev JSObject (α : Type) := List (String × α)

/-- The parsed command line, `minimist(process.argv.slice(2))`. -/
abbrev Args := JSObject ArgVal

/-- Property read `o[k]`; `none` is `undefined`. -/
def JSObject.get {α : Type} (o : JSObject α) (k : String) : Option α :=
  List.lookup k o

/-- Property write `o[k] = v`: an existing property keeps its place, a new one
is appended. -/
def JSObject.set {α : Type} : JSObject α → String → α → JSObject α
  | [], k, v => [(k, v)]
  | (k', v') :: rest, k, v =>
    if k' = k then (k, v) :: rest else (k', v') :: JSObject.set rest k v

/-- The array `Object.keys(o)`. -/
def objectKeys {α : Type} (o : JSObject α) : List String := o.map Prod.fst

/-- Truthiness of a scalar. -/
def Scalar.truthy : Scalar → Bool
  | .bool b => b
  | .num n => n.truthy
  | .str s => s != ""

/-- Truthiness of an argument value; an array is an object and always truthy. -/
def ArgVal.truthy : ArgVal → Bool
  | .scalar v => v.truthy
  | .arr _ => true

/-- Truthiness of `args[k]`-like reads, where `none` is `undefined`. -/
def truthy : Option ArgVal → Bool
  | none => false
  | some v => v.truthy

/-- Truthiness of a nullable string such as `status.conclusion`: `null` and
the empty string are falsy. -/
def truthyStr : Option String → Bool
  | none => false
  | some s => s != ""

/-- Truthiness of an array value: always true, also for the empty array. -/
def truthyArray {α : Type} (_xs : List α) : Bool := true

/-- Truthiness of a non-negative integer counter. -/
def truthyNat (n : Nat) : Bool := n != 0

/-! ## Data model -/

/-- The status object handed to the callback. -/
structure Status where
  label : String
  conclusion : Option String
  deriving DecidableEq

/-- A violation attached to a status. -/
structure Violation where
  severity : Int
  category : String
  name : String
  count : Nat
  fail_simulation : Bool
  deriving DecidableEq

/-- A value that is either text or an integer: a table cell, or the result of
`severityToColorCLI`, which returns its argument unchanged outside `1..4`. -/
inductive Cell where
  | text (s : String)
  | int (i : Int)
  deriving DecidableEq

/-- What `publish` resolves to. -/
structure Handle where
  eventId : String
  customerId : String
  deriving DecidableEq

/-- The library functions the script calls. -/
structure Env where
  /-- Conversion of a number to text, as a template literal does it. -/
  numToString : JSNum → String
  /-- The built-in `Number` applied to text. -/
  strToNum : String → JSNum
  /-- `colors.red`. -/
  red : String → String
  /-- `colors.yellow`. -/
  yellow : String → String
  /-- `colors.gray`. -/
  gray : String → String
  /-- `colors.green`. -/
  green : String → String
  /-- `toString` of a `cli-table3` table with the given head and rows. -/
  tableToString : List String → List (List Cell) → String
  /-- `getMarkdownComment(status, violations, details_url)`; the second
  argument is `none` when the callback received `undefined`. -/
  getMarkdownComment : Status → Option (List Violation) → String → String

/-- Text of a scalar inside a template literal. -/
def Scalar.toStr (env : Env) : Scalar → String
  | .bool b => if b then "true" else "false"
  | .num n => env.numToString n
  | .str s => s

/-- Text of an argument value inside a template literal; an array is joined
with commas. -/
def ArgVal.toStr (env : Env) : ArgVal → String
  | .scalar v => v.toStr env
  | .arr vs => String.intercalate "," (vs.map (Scalar.toStr env))

/-- Text of `args[k]` inside a template literal. -/
def toStr (env : Env) : Option ArgVal → String
  | none => "undefined"
  | some v => v.toStr env

/-- Text of a cell inside a template literal. -/
def Cell.toStr : Cell → String
  | .text s => s
  | .int i => toString i

/-- The built-in `Number(x)` on `args[k]`. -/
def jsNumber (env : Env) : Option ArgVal → JSNum
  | none => .nan
  | some (.scalar (.num n)) => n
  | some (.scalar (.bool b)) => if b then JSNum.ofNat 1 else JSNum.ofNat 0
  | some (.scalar (.str s)) => env.strToNum s
  | some (.arr vs) => env.strToNum (ArgVal.toStr env (.arr vs))

/-! ## Constants of the script -/

/-- Default poll timeout, in minutes. -/
def pollTimeoutDefault : JSNum := JSNum.ofNat 10

/-- Default poll interval, in milliseconds. -/
def pollIntervalDefault : JSNum := JSNum.ofNat 5000

/-- The arguments a run cannot do without. -/
def requiredArgs : List String := ["dir", "hostname", "graph", "token"]

/-- The metadata arguments that are copied when given. -/
def optionalMetadataArgs : List String :=
  ["name", "type", "format", "branch", "base_branch", "commit_hash", "pr_id",
   "repository", "user_name"]

/-- The string thrown for `--help` and `-h`. -/
def helpMessage : String :=
  "Expected usage: node index.js --dir=\"./working-dir\" --hostname=\"./api-Url\" --plan=\"./working-dir/plan.json\" --graph=\"./working-dir/graph.dot\" --token=\"collection-token\""

/-- The string thrown when the parsed object has too few keys. -/
def tooFewMessage : String :=
  "Expected at least " ++ toString requiredArgs.length ++
  " cli arguments. usage: node index.js --dir=\"./working-dir\" --hostname=\"./api-Url\" --plan=\"./working-dir/plan.json\" --graph=\"./working-dir/graph.dot\" --token=\"collection-token\""

/-- The string thrown for a required argument with a falsy value. -/
def missingArgMessage (requiredArg : String) : String :=
  "Missing arg - \"" ++ requiredArg ++ "\" usage: node index.js --" ++ requiredArg ++
  "=value. try --help if needed"

/-! ## Validation and metadata -/

/-- The checks at the head of the `try` block: the thrown string, or `none`
when no check throws.  `forEach` throws at the first required argument whose
value is falsy. -/
def validate (args : Args) : Option String :=
  if truthy (args.get "help") || truthy (args.get "h") then
    some helpMessage
  else if (objectKeys args).length ≤ requiredArgs.length then
    some tooFewMessage
  else
    match requiredArgs.find? (fun requiredArg => !truthy (args.get requiredArg)) with
    | some requiredArg => some (missingArgMessage requiredArg)
    | none => none

/-- One step of the loop over `optionalMetadataArgs`: copy a truthy argument
into `metadata.source`. -/
def copyMetadataArg (args : Args) (source : JSObject ArgVal) (arg : String) :
    JSObject ArgVal :=
  match args.get arg with
  | some v => if v.truthy then source.set arg v else source
  | none => source

/-- The object `metadata.source` after the loop over `optionalMetadataArgs`. -/
def metadataSource (args : Args) : JSObject ArgVal :=
  optionalMetadataArgs.foldl (copyMetadataArg args)
    [("format", .scalar (.str "Terraform"))]

/-! ## Rendering -/

/-- The function `severityToColorCLI`; outside `1..4` the severity itself is
returned. -/
def severityToColorCLI (env : Env) (severity : Int) : Cell :=
  if severity = 4 then .text (env.red "Critical")
  else if severity = 3 then .text (env.red "High")
  else if severity = 2 then .text (env.yellow "Medium")
  else if severity = 1 then .text (env.gray "Low")
  else .int severity

/-- The function `statusToColorCLI`. -/
def statusToColorCLI (env : Env) (statusLabel : String) : String :=
  if statusLabel = "Errored" then env.red statusLabel
  else if statusLabel = "Failed" then env.red statusLabel
  else if statusLabel = "Passed" then env.green statusLabel
  else statusLabel

/-- The head of the violations table. -/
def tableHead : List String := ["Severity", "Category", "Violation", "Count"]

/-- The local function `formatViolation` of `printCLI`: one table row. -/
def formatViolation (env : Env) (violation : Violation) : List Cell :=
  [.text ((severityToColorCLI env violation.severity).toStr ++
      (if violation.fail_simulation then "*" else "")),
   .text violation.category, .text violation.name, .int (Int.ofNat violation.count)]

/-- The `for` loop of `printCLI`, on the state `(forceFailCount, rows)`. -/
def printCLILoop (env : Env) : List Violation → Nat × List (List Cell) → Nat × List (List Cell)
  | [], state => state
  | violation :: rest, (forceFailCount, rows) =>
    printCLILoop env rest
      (if violation.fail_simulation then forceFailCount + 1 else forceFailCount,
       rows ++ [formatViolation env violation])

/-- The function `printCLI`: the arguments of its `console.log` calls, in
order.  A missing second argument takes the default `[]`. -/
def printCLI (env : Env) (status : Status) (violationsArg : Option (List Violation))
    (details_url : String) : List String :=
  let violations := violationsArg.getD []
  let (forceFailCount, rows) := printCLILoop env violations (0, [])
  ["An execution simulation has been generated by Lightlytics:\n" ++ details_url,
   "Simulation Status: " ++ statusToColorCLI env status.label ++ "\n",
   "Total violations count: " ++ toString violations.length,
   "Forced failed violations: " ++ toString forceFailCount] ++
  (if truthyArray violations then
    ["Violation Summary:", env.tableToString tableHead rows] ++
    (if truthyNat forceFailCount then
      ["* Violation that is forcing the simulation to fail"] else [])
   else [])

/-- The function `logFormattedSimulation`: the argument of its one
`console.log` call. -/
def logFormattedSimulation (link : String) : List String :=
  ["An execution simulation has been generated by **Lightlytics**, to view this run impact analysis, Visit:\n" ++
    link ++
    "\n\n> _This comment was added automatically by a git workflow to help DevOps teams predict what will be the impact of the proposed change after completing this PR_"]

/-! ## The callback and the run -/

/-- What one callback invocation does: the `console.log` arguments, and the
code given to `process.exit` if it is called. -/
structure CallbackEffect where
  printed : List String
  exit : Option Nat
  deriving DecidableEq

/-- The arrow function passed as `onStatusUpdate`. -/
def onStatusUpdate (env : Env) (args : Args) (apiUrl : Option ArgVal)
    (customerId eventId : String) (status : Status)
    (violations : Option (List Violation)) : CallbackEffect :=
  if truthyStr status.conclusion then
    let details_url :=
      "https://" ++ toStr env apiUrl ++ "/w/" ++ customerId ++ "/simulations/" ++ eventId
    let printed :=
      if truthy (args.get "markdown") then
        [env.getMarkdownComment status violations details_url]
      else
        printCLI env status violations details_url
    if status.conclusion ≠ some "success" then
      { printed := printed, exit := some 1 }
    else
      { printed := printed, exit := none }
  else
    { printed := [], exit := none }

/-- The callback invoked on a sequence of statuses, in order.  A call of
`process.exit` ends the process, so later statuses are not delivered. -/
def deliver (callback : Status → Option (List Violation) → CallbackEffect) :
    List (Status × Option (List Violation)) → CallbackEffect
  | [] => { printed := [], exit := none }
  | (status, violations) :: rest =>
    let first := callback status violations
    match first.exit with
    | some code => { printed := first.printed, exit := some code }
    | none =>
      let later := deliver callback rest
      { printed := first.printed ++ later.printed, exit := later.exit }

/-- The exit code of the process: the code given to `process.exit`, and `0`
when the script runs to its end. -/
def processExitCode (exit : Option Nat) : Nat := exit.getD 0

/-- The argument of the `publish` call. -/
structure PublishRequest where
  apiUrl : Option ArgVal
  tfWorkingDir : Option ArgVal
  tfPlan : Option ArgVal
  tfcToken : Option ArgVal
  tfcRunId : Option ArgVal
  tfGraph : Option ArgVal
  collectionToken : Option ArgVal
  metadataSource : JSObject ArgVal
  deriving DecidableEq

/-- The data fields of the argument of the `poll` call (the callback is
`onStatusUpdate`). -/
structure PollRequest where
  apiUrl : Option ArgVal
  collectionToken : Option ArgVal
  customerId : String
  eventId : String
  pollTimeout : JSNum
  pollInterval : JSNum
  deriving DecidableEq

/-- What the remote collaborators do during one run. -/
structure World where
  /-- The `publish` promise: rejected with an error, or resolved. -/
  publishResult : Except String Handle
  /-- The statuses and violations `poll` hands to the callback, in order. -/
  pollDeliveries : List (Status × Option (List Violation))
  /-- The error `poll` rejects with after its deliveries, if any. -/
  pollError : Option String

/-- The observable effects of one run. -/
structure Outcome where
  /-- Arguments of the `console.log` calls, in order. -/
  stdout : List String
  /-- Arguments of the `console.error` calls, in order. -/
  stderr : List String
  publishCalls : List PublishRequest
  pollCalls : List PollRequest
  exitCode : Nat
  deriving DecidableEq

/-- The argument of `publish` built from the parsed command line. -/
def publishRequest (args : Args) : PublishRequest :=
  { apiUrl := args.get "hostname"
    tfWorkingDir := args.get "dir"
    tfPlan := args.get "plan"
    tfcToken := args.get "tfc-token"
    tfcRunId := args.get "tfc-run-id"
    tfGraph := args.get "graph"
    collectionToken := args.get "token"
    metadataSource := metadataSource args }

/-- The data fields of the argument of `poll`. -/
def pollRequest (env : Env) (args : Args) (handle : Handle) : PollRequest :=
  { apiUrl := args.get "hostname"
    collectionToken := args.get "token"
    customerId := handle.customerId
    eventId := handle.eventId
    pollTimeout :=
      if truthy (args.get "pollTimeout") then jsNumber env (args.get "pollTimeout")
      else pollTimeoutDefault
    pollInterval :=
      if truthy (args.get "pollInterval") then jsNumber env (args.get "pollInterval")
      else pollIntervalDefault }

/-- The top-level `try`/`catch` of the script. -/
def main (env : Env) (world : World) (args : Args) : Outcome :=
  match validate args with
  | some thrown =>
    { stdout := [], stderr := [thrown], publishCalls := [], pollCalls := [], exitCode := 0 }
  | none =>
    let apiUrl := args.get "hostname"
    match world.publishResult with
    | .error error =>
      { stdout := [], stderr := [error], publishCalls := [publishRequest args],
        pollCalls := [], exitCode := 0 }
    | .ok handle =>
      if truthy (args.get "poll") then
        let effect :=
          deliver (onStatusUpdate env args apiUrl handle.customerId handle.eventId)
            world.pollDeliveries
        match effect.exit with
        | some code =>
          { stdout := effect.printed, stderr := [], publishCalls := [publishRequest args],
            pollCalls := [pollRequest env args handle], exitCode := processExitCode (some code) }
        | none =>
          { stdout := effect.printed,
            stderr := match world.pollError with
              | some error => [error]
              | none => [],
            publishCalls := [publishRequest args],
            pollCalls := [pollRequest env args handle], exitCode := processExitCode none }
      else
        { stdout :=
            logFormattedSimulation
              ("https://" ++ toStr env apiUrl ++ "/w/" ++ handle.customerId ++
                "/simulations/" ++ handle.eventId),
          stderr := [], publishCalls := [publishRequest args], pollCalls := [],
          exitCode := processExitCode none }

/-! ## A concrete environment for evaluation -/

/-- An environment with colours switched off and a table printed row by row.
An integer below `10 ^ 21` in absolute value is printed in decimal, as
JavaScript prints it; the other number conversions are placeholders, which no
evaluation below reaches. -/
def plainEnv : Env :=
  { numToString := fun n =>
      match n with
      | .fin m 0 => if m.natAbs < 10 ^ 21 then toString m else "NaN"
      | _ => "NaN"
    strToNum := fun _ => .nan
    red := id
    yellow := id
    gray := id
    green := id
    tableToString := fun head rows =>
      String.intercalate "\n"
        (String.intercalate " | " head ::
          rows.map (fun row => String.intercalate " | " (row.map Cell.toStr)))
    getMarkdownComment := fun status _ details_url =>
      "**" ++ status.label ++ "** " ++ details_url }

/-- A command line with the four required arguments and nothing else. -/
def sampleArgs : Args :=
  [("_", .arr []), ("dir", .scalar (.str "./working-dir")),
   ("hostname", .scalar (.str "api.example.com")),
   ("graph", .scalar (.str "./working-dir/graph.dot")), ("token", .scalar (.str "collection-token"))]

/-- The same command line with `--poll`. -/
def samplePollArgs : Args := sampleArgs ++ [("poll", .scalar (.bool true))]

/-- The same command line with `--poll --markdown`. -/
def sampleMarkdownArgs : Args := samplePollArgs ++ [("markdown", .scalar (.bool true))]

/-- The handle of the sample runs. -/
def sampleHandle : Handle := { eventId := "e1", customerId := "c1" }

/-- A run in which `publish` resolves and `poll` hands the given statuses to
the callback. -/
def worldOf (deliveries : List (Status × Option (List Violation))) : World :=
  { publishResult := .ok sampleHandle, pollDeliveries := deliveries, pollError := none }

/-- A run in which `publish` rejects. -/
def failingWorld : World :=
  { publishResult := .error "Error: Request failed with status code 401",
    pollDeliveries := [], pollError := none }

/-- A status that is still running. -/
def pendingStatus : Status := { label := "Pending", conclusion := none }

/-- A finished status whose conclusion is `success`. -/
def passedStatus : Status := { label := "Passed", conclusion := some "success" }

/-- A finished status whose conclusion is `failure`. -/
def failedStatus : Status := { label := "Failed", conclusion := some "failure" }

/-- A status whose conclusion is the empty string. -/
def emptyConclusionStatus : Status := { label := "Failed", conclusion := some "" }

/-- The violation of the worked example. -/
def budgetViolation : Violation :=
  { severity := 4, category := "cost", name := "budget", count := 3, fail_simulation := true }

/-- The sample command line with `--hostname=8080`, which `minimist` parses to
the number 8080. -/
def numericHostArgs : Args :=
  [("_", .arr []), ("dir", .scalar (.str "./working-dir")),
   ("hostname", .scalar (.num (.fin 8080 0))),
   ("graph", .scalar (.str "./working-dir/graph.dot")), ("token", .scalar (.str "collection-token"))]

/-- The sample command line with `--pr_id=0`, which `minimist` parses to
the number 0. -/
def prIdZeroArgs : Args := sampleArgs ++ [("pr_id", .scalar (.num (.fin 0 0)))]

/-- The sample command line with a branch, a commit hash and a format. -/
def provenanceArgs : Args :=
  sampleArgs ++
    [("branch", .scalar (.str "main")), ("commit_hash", .scalar (.str "0a1b2c3")),
     ("format", .scalar (.str "Terragrunt"))]

/-- A command line without any flag: only the positional list. -/
def noFlagArgs : Args := [("_", .arr [])]

/-- A command line with five flags, `token` not among them. -/
def noTokenArgs : Args :=
  [("_", .arr []), ("dir", .scalar (.str "./working-dir")),
   ("hostname", .scalar (.str "api.example.com")),
   ("graph", .scalar (.str "./working-dir/graph.dot")),
   ("plan", .scalar (.str "./working-dir/plan.json")), ("poll", .scalar (.bool true))]

/-- The polled sample command line with `--pollTimeout=0 --pollInterval=0`. -/
def zeroPollArgs : Args :=
  samplePollArgs ++
    [("pollTimeout", .scalar (.num (.fin 0 0))), ("pollInterval", .scalar (.num (.fin 0 0)))]

/-- The polled sample command line with `--pollTimeout=3 --pollInterval=250`. -/
def customPollArgs : Args :=
  samplePollArgs ++
    [("pollTimeout", .scalar (.num (.fin 3 0))), ("pollInterval", .scalar (.num (.fin 250 0)))]

/-! ## Lemmas on the rendering loop -/

theorem printCLILoop_eq (env : Env) (violations : List Violation) (forceFailCount : Nat)
    (rows : List (List Cell)) :
    printCLILoop env violations (forceFailCount, rows) =
      (forceFailCount + violations.countP (fun v => v.fail_simulation),
       rows ++ violations.map (formatViolation env)) := by
  induction violations generalizing forceFailCount rows with
  | nil => simp [printCLILoop]
  | cons v rest ih =>
    cases hv : v.fail_simulation <;>
      simp [printCLILoop, ih, hv, List.countP_cons, Nat.add_assoc, Nat.add_comm]

theorem printCLI_eq (env : Env) (status : Status) (violations : List Violation)
    (details_url : String) :
    printCLI env status (some violations) details_url =
      ["An execution simulation has been generated by Lightlytics:\n" ++ details_url,
       "Simulation Status: " ++ statusToColorCLI env status.label ++ "\n",
       "Total violations count: " ++ toString violations.length,
       "Forced failed violations: " ++
         toString (violations.countP (fun v => v.fail_simulation)),
       "Violation Summary:",
       env.tableToString tableHead (violations.map (formatViolation env))] ++
      (if violations.countP (fun v => v.fail_simulation) = 0 then []
       else ["* Violation that is forcing the simulation to fail"]) := by
  simp only [printCLI, Option.getD_some, printCLILoop_eq, truthyArray, truthyNat]
  by_cases h : violations.countP (fun v => v.fail_simulation) = 0 <;> simp [h]

/-! ## Claims on the terminal report -/

/-- C3: for every violation list, the empty one included, the third line of
the terminal report is `Total violations count:` followed by the length of the
list, and the fourth is `Forced failed violations:` followed by the number of
violations of the list whose `fail_simulation` flag is true. -/
theorem printCLI_counts (env : Env) (status : Status) (violations : List Violation)
    (details_url : String) :
    (printCLI env status (some violations) details_url)[2]? =
        some ("Total violations count: " ++ toString violations.length) ∧
    (printCLI env status (some violations) details_url)[3]? =
        some ("Forced failed violations: " ++
          toString (violations.filter (fun v => v.fail_simulation = true)).length) := by
  rw [printCLI_eq]
  refine ⟨by simp, ?_⟩
  have hc : violations.countP (fun v => v.fail_simulation) =
      (violations.filter (fun v => v.fail_simulation = true)).length := by
    rw [List.countP_eq_length_filter]
    congr 1
    apply List.filter_congr
    intro v _
    simp
  simp [hc]

/-- C4, evaluated on the code: with the empty violation list, and with the
list left out, the terminal report shows both counts as 0 and then still prints
the `Violation Summary:` heading and the table, which has no rows. -/
theorem printCLI_empty_prints_table (env : Env) (status : Status) (details_url : String) :
    printCLI env status (some []) details_url =
      ["An execution simulation has been generated by Lightlytics:\n" ++ details_url,
       "Simulation Status: " ++ statusToColorCLI env status.label ++ "\n",
       "Total violations count: 0",
       "Forced failed violations: 0",
       "Violation Summary:",
       env.tableToString tableHead []] ∧
    printCLI env status none details_url = printCLI env status (some []) details_url := by
  constructor
  · rw [printCLI_eq]
    simp
    exact ⟨by decide, by decide⟩
  · rfl

/-- C5: a violation of severity 4, 3, 2 or 1 is turned into the row whose
first cell is the red `Critical`, red `High`, yellow `Medium` or gray `Low`
followed by `*` exactly when `fail_simulation` is true, and whose other cells
are the category, the name and the count; the table of the report has one such
row per violation, in the order of the list. -/
theorem formatViolation_rows (env : Env) (category name : String) (count : Nat)
    (fail_simulation : Bool) (status : Status) (violations : List Violation)
    (details_url : String) :
    formatViolation env ⟨4, category, name, count, fail_simulation⟩ =
      [.text (env.red "Critical" ++ if fail_simulation then "*" else ""),
       .text category, .text name, .int count] ∧
    formatViolation env ⟨3, category, name, count, fail_simulation⟩ =
      [.text (env.red "High" ++ if fail_simulation then "*" else ""),
       .text category, .text name, .int count] ∧
    formatViolation env ⟨2, category, name, count, fail_simulation⟩ =
      [.text (env.yellow "Medium" ++ if fail_simulation then "*" else ""),
       .text category, .text name, .int count] ∧
    formatViolation env ⟨1, category, name, count, fail_simulation⟩ =
      [.text (env.gray "Low" ++ if fail_simulation then "*" else ""),
       .text category, .text name, .int count] ∧
    formatViolation env ⟨4, "cost", "budget", 3, true⟩ =
      [.text (env.red "Critical" ++ "*"), .text "cost", .text "budget", .int 3] ∧
    (printCLILoop env violations (0, [])).2 = violations.map (formatViolation env) ∧
    (printCLI env status (some violations) details_url)[5]? =
      some (env.tableToString tableHead (violations.map (formatViolation env))) := by
  refine ⟨?_, ?_, ?_, ?_, ?_, ?_, ?_⟩
  · simp [formatViolation, severityToColorCLI, Cell.toStr]
  · simp [formatViolation, severityToColorCLI, Cell.toStr]
  · simp [formatViolation, severityToColorCLI, Cell.toStr]
  · simp [formatViolation, severityToColorCLI, Cell.toStr]
  · simp [formatViolation, severityToColorCLI, Cell.toStr]
  · simp [printCLILoop_eq]
  · rw [printCLI_eq]
    simp

/-! ## Lemmas on the callback and the run -/

theorem onStatusUpdate_falsy (env : Env) (args : Args) (apiUrl : Option ArgVal)
    (customerId eventId : String) (status : Status) (violations : Option (List Violation))
    (h : truthyStr status.conclusion = false) :
    onStatusUpdate env args apiUrl customerId eventId status violations =
      { printed := [], exit := none } := by
  simp [onStatusUpdate, h]

theorem onStatusUpdate_truthy (env : Env) (args : Args) (apiUrl : Option ArgVal)
    (customerId eventId : String) (status : Status) (violations : Option (List Violation))
    (h : truthyStr status.conclusion = true) :
    onStatusUpdate env args apiUrl customerId eventId status violations =
      { printed :=
          if truthy (args.get "markdown") then
            [env.getMarkdownComment status violations
              ("https://" ++ toStr env apiUrl ++ "/w/" ++ customerId ++ "/simulations/" ++
                eventId)]
          else
            printCLI env status violations
              ("https://" ++ toStr env apiUrl ++ "/w/" ++ customerId ++ "/simulations/" ++
                eventId),
        exit := if status.conclusion = some "success" then none else some 1 } := by
  unfold onStatusUpdate
  rw [if_pos h]
  by_cases hs : status.conclusion = some "success"
  · rw [if_neg (not_not.mpr hs), if_pos hs]
  · rw [if_pos hs, if_neg hs]

theorem printCLI_ne_nil (env : Env) (status : Status) (violations : Option (List Violation))
    (details_url : String) : printCLI env status violations details_url ≠ [] := by
  cases violations with
  | none =>
    have h : printCLI env status none details_url = printCLI env status (some []) details_url :=
      rfl
    rw [h, printCLI_eq]
    simp
  | some vs =>
    rw [printCLI_eq]
    simp

theorem deliver_falsy (callback : Status → Option (List Violation) → CallbackEffect)
    (deliveries : List (Status × Option (List Violation)))
    (h : ∀ p ∈ deliveries, callback p.1 p.2 = { printed := [], exit := none }) :
    deliver callback deliveries = { printed := [], exit := none } := by
  induction deliveries with
  | nil => rfl
  | cons p rest ih =>
    obtain ⟨status, violations⟩ := p
    have hp := h (status, violations) (List.mem_cons_self _ _)
    have hrest := ih (fun q hq => h q (List.mem_cons_of_mem _ hq))
    simp only at hp
    simp [deliver, hp, hrest]

theorem deliver_append_falsy (callback : Status → Option (List Violation) → CallbackEffect)
    (pre rest : List (Status × Option (List Violation)))
    (h : ∀ p ∈ pre, callback p.1 p.2 = { printed := [], exit := none }) :
    deliver callback (pre ++ rest) = deliver callback rest := by
  induction pre with
  | nil => rfl
  | cons p more ih =>
    obtain ⟨status, violations⟩ := p
    have hp := h (status, violations) (List.mem_cons_self _ _)
    have hmore := ih (fun q hq => h q (List.mem_cons_of_mem _ hq))
    simp only at hp
    simp [deliver, hp, hmore]

theorem deliver_singleton (callback : Status → Option (List Violation) → CallbackEffect)
    (status : Status) (violations : Option (List Violation)) :
    deliver callback [(status, violations)] = callback status violations := by
  cases h : (callback status violations).exit with
  | none =>
    simp only [deliver, h, List.append_nil]
    rw [← h]
  | some code =>
    simp only [deliver, h]
    rw [← h]

theorem hostname_truthy_of_validate (args : Args) (hv : validate args = none) :
    truthy (args.get "hostname") = true := by
  unfold validate at hv
  split at hv
  · exact absurd hv (by simp)
  · split at hv
    · exact absurd hv (by simp)
    · split at hv
      · exact absurd hv (by simp)
      · rename_i hfind
        rw [List.find?_eq_none] at hfind
        have h := hfind "hostname" (by decide)
        simpa using h

theorem main_invalid (env : Env) (world : World) (args : Args) (thrown : String)
    (hv : validate args = some thrown) :
    main env world args =
      { stdout := [], stderr := [thrown], publishCalls := [], pollCalls := [],
        exitCode := 0 } := by
  simp [main, hv]

theorem main_publish_error (env : Env) (world : World) (args : Args) (error : String)
    (hv : validate args = none) (hp : world.publishResult = .error error) :
    main env world args =
      { stdout := [], stderr := [error], publishCalls := [publishRequest args],
        pollCalls := [], exitCode := 0 } := by
  simp [main, hv, hp]

theorem main_no_poll (env : Env) (world : World) (args : Args) (handle : Handle)
    (hv : validate args = none) (hp : world.publishResult = .ok handle)
    (hpoll : truthy (args.get "poll") = false) :
    main env world args =
      { stdout :=
          logFormattedSimulation
            ("https://" ++ toStr env (args.get "hostname") ++ "/w/" ++ handle.customerId ++
              "/simulations/" ++ handle.eventId),
        stderr := [], publishCalls := [publishRequest args], pollCalls := [],
        exitCode := 0 } := by
  simp [main, hv, hp, hpoll, processExitCode]

theorem main_poll (env : Env) (world : World) (args : Args) (handle : Handle)
    (hv : validate args = none) (hp : world.publishResult = .ok handle)
    (hpoll : truthy (args.get "poll") = true) :
    (main env world args).stdout =
      (deliver (onStatusUpdate env args (args.get "hostname") handle.customerId handle.eventId)
        world.pollDeliveries).printed ∧
    (main env world args).exitCode =
      processExitCode
        (deliver (onStatusUpdate env args (args.get "hostname") handle.customerId
          handle.eventId) world.pollDeliveries).exit ∧
    (main env world args).publishCalls = [publishRequest args] ∧
    (main env world args).pollCalls = [pollRequest env args handle] := by
  simp only [main, hv, hp, hpoll, if_true]
  split <;> simp [*]

/-! ## Claims on the exit code and on when a report is rendered -/

/-- C1, counterexample: a status whose conclusion is the empty string has a
non-null conclusion other than `success`, and the polled run that receives it
ends with exit code 0, in CLI mode and in Markdown mode. -/
theorem exitCode_zero_on_empty_conclusion :
    emptyConclusionStatus.conclusion ≠ none ∧
    emptyConclusionStatus.conclusion ≠ some "success" ∧
    (main plainEnv (worldOf [(emptyConclusionStatus, some [budgetViolation])])
      samplePollArgs).exitCode = 0 ∧
    (main plainEnv (worldOf [(emptyConclusionStatus, some [budgetViolation])])
      sampleMarkdownArgs).exitCode = 0 := by
  decide

/-- C1, amended: in a polled run whose first status with a truthy conclusion
(non-null and not the empty string) is the last one delivered, the exit code
is 0 if and only if that conclusion is `success` and is 1 for every other
conclusion; the callback's decision is a function of the conclusion alone,
whatever the arguments (the markdown flag among them), the violations and the
colouring functions. -/
theorem exitCode_iff_success (env : Env) (world : World) (args : Args) (handle : Handle)
    (pre : List (Status × Option (List Violation))) (status : Status)
    (violations : Option (List Violation))
    (hv : validate args = none) (hp : world.publishResult = .ok handle)
    (hpoll : truthy (args.get "poll") = true)
    (hd : world.pollDeliveries = pre ++ [(status, violations)])
    (hpre : ∀ p ∈ pre, truthyStr p.1.conclusion = false)
    (hc : truthyStr status.conclusion = true) :
    ((main env world args).exitCode = 0 ↔ status.conclusion = some "success") ∧
    (status.conclusion ≠ some "success" → (main env world args).exitCode = 1) ∧
    (∀ (env' : Env) (args' : Args) (apiUrl : Option ArgVal) (customerId eventId : String)
        (violations' : Option (List Violation)),
      processExitCode
        (onStatusUpdate env' args' apiUrl customerId eventId status violations').exit =
        if status.conclusion = some "success" then 0 else 1) := by
  have hcb : ∀ (env' : Env) (args' : Args) (apiUrl : Option ArgVal)
      (customerId eventId : String) (violations' : Option (List Violation)),
      processExitCode
        (onStatusUpdate env' args' apiUrl customerId eventId status violations').exit =
        if status.conclusion = some "success" then 0 else 1 := by
    intro env' args' apiUrl customerId eventId violations'
    rw [onStatusUpdate_truthy _ _ _ _ _ _ _ hc]
    by_cases hs : status.conclusion = some "success" <;> simp [hs, processExitCode]
  have hrun : (main env world args).exitCode =
      if status.conclusion = some "success" then 0 else 1 := by
    rw [(main_poll env world args handle hv hp hpoll).2.1, hd,
      deliver_append_falsy _ _ _
        (fun p hp' => onStatusUpdate_falsy _ _ _ _ _ _ _ (hpre p hp')),
      deliver_singleton]
    exact hcb _ _ _ _ _ _
  refine ⟨?_, ?_, hcb⟩
  · rw [hrun]
    by_cases hs : status.conclusion = some "success" <;> simp [hs]
  · intro hs
    rw [hrun, if_neg hs]

/-- C1, witness: the failing status after a pending one, in CLI mode. -/
theorem exitCode_iff_success_witness :
    (main plainEnv (worldOf [(pendingStatus, none), (failedStatus, some [budgetViolation])])
      samplePollArgs).exitCode = 1 :=
  (exitCode_iff_success plainEnv
    (worldOf [(pendingStatus, none), (failedStatus, some [budgetViolation])])
    samplePollArgs sampleHandle [(pendingStatus, none)] failedStatus (some [budgetViolation])
    (by decide) rfl (by decide) rfl (by decide) (by decide)).2.1 (by decide)

/-- C2, counterexample: the second status delivered is the first with a
non-null conclusion, namely the empty string, and neither callback prints
anything: the run renders no report. -/
theorem no_render_on_empty_conclusion :
    pendingStatus.conclusion = none ∧
    emptyConclusionStatus.conclusion ≠ none ∧
    (deliver
      (onStatusUpdate plainEnv samplePollArgs (samplePollArgs.get "hostname") "c1" "e1")
      [(pendingStatus, none), (emptyConclusionStatus, some [budgetViolation])]).printed = [] ∧
    (main plainEnv
      (worldOf [(pendingStatus, none), (emptyConclusionStatus, some [budgetViolation])])
      samplePollArgs).stdout = [] := by
  decide

/-- C2, amended: a callback prints a report exactly when its status has a
truthy conclusion (non-null and not the empty string).  After statuses
without one, which print nothing and do not exit, a status with a truthy
conclusion prints exactly one report, the Markdown comment or the terminal
report of that status; a polled run that only receives statuses without a
truthy conclusion prints nothing and ends with exit code 0. -/
theorem render_on_first_conclusion (env : Env) (world : World) (args : Args)
    (handle : Handle) (pre : List (Status × Option (List Violation))) (status : Status)
    (violations : Option (List Violation))
    (hv : validate args = none) (hp : world.publishResult = .ok handle)
    (hpoll : truthy (args.get "poll") = true)
    (hpre : ∀ p ∈ pre, truthyStr p.1.conclusion = false) :
    ((onStatusUpdate env args (args.get "hostname") handle.customerId handle.eventId
        status violations).printed ≠ [] ↔ truthyStr status.conclusion = true) ∧
    (∀ p ∈ pre,
      onStatusUpdate env args (args.get "hostname") handle.customerId handle.eventId p.1 p.2 =
        { printed := [], exit := none }) ∧
    (world.pollDeliveries = pre →
      (main env world args).stdout = [] ∧ (main env world args).exitCode = 0) ∧
    (truthyStr status.conclusion = true →
      world.pollDeliveries = pre ++ [(status, violations)] →
      (main env world args).stdout =
        if truthy (args.get "markdown") then
          [env.getMarkdownComment status violations
            ("https://" ++ toStr env (args.get "hostname") ++ "/w/" ++ handle.customerId ++
              "/simulations/" ++ handle.eventId)]
        else
          printCLI env status violations
            ("https://" ++ toStr env (args.get "hostname") ++ "/w/" ++ handle.customerId ++
              "/simulations/" ++ handle.eventId)) := by
  have hfalsy : ∀ p ∈ pre,
      onStatusUpdate env args (args.get "hostname") handle.customerId handle.eventId p.1 p.2 =
        { printed := [], exit := none } :=
    fun p hp' => onStatusUpdate_falsy _ _ _ _ _ _ _ (hpre p hp')
  have hmain := main_poll env world args handle hv hp hpoll
  refine ⟨?_, hfalsy, ?_, ?_⟩
  · cases hc : truthyStr status.conclusion with
    | false => simp [onStatusUpdate_falsy _ _ _ _ _ _ _ hc]
    | true =>
      rw [onStatusUpdate_truthy _ _ _ _ _ _ _ hc]
      by_cases hm : truthy (args.get "markdown") = true <;> simp [hm, printCLI_ne_nil]
  · intro hd
    rw [hmain.1, hmain.2.1, hd, deliver_falsy _ _ hfalsy]
    exact ⟨rfl, rfl⟩
  · intro hc hd
    rw [hmain.1, hd, deliver_append_falsy _ _ _ hfalsy, deliver_singleton,
      onStatusUpdate_truthy _ _ _ _ _ _ _ hc]

/-- C2, witness: a pending status followed by the passed one, in CLI mode;
the report is printed once, by the second callback. -/
theorem render_on_first_conclusion_witness :
    (main plainEnv (worldOf [(pendingStatus, none), (passedStatus, some [])])
      samplePollArgs).stdout =
      printCLI plainEnv passedStatus (some []) "https://api.example.com/w/c1/simulations/e1" :=
  (render_on_first_conclusion plainEnv
    (worldOf [(pendingStatus, none), (passedStatus, some [])]) samplePollArgs sampleHandle
    [(pendingStatus, none)] passedStatus (some []) (by decide) rfl (by decide)
    (by decide)).2.2.2 (by decide) rfl

/-! ## Lemmas on objects and on the metadata loop -/

theorem get_nil {α : Type} (k : String) : JSObject.get ([] : JSObject α) k = none := rfl

theorem get_cons {α : Type} (a k : String) (b : α) (rest : JSObject α) :
    JSObject.get ((a, b) :: rest) k = if k = a then some b else JSObject.get rest k := by
  by_cases h : k = a
  · subst h
    simp [JSObject.get, List.lookup]
  · have hb : (k == a) = false := by simpa using h
    simp [JSObject.get, List.lookup, hb, h]

theorem get_set {α : Type} (o : JSObject α) (k k' : String) (v : α) :
    (o.set k v).get k' = if k' = k then some v else o.get k' := by
  induction o with
  | nil => simp [JSObject.set, get_cons, get_nil]
  | cons p rest ih =>
    obtain ⟨a, b⟩ := p
    by_cases ha : a = k
    · subst ha
      by_cases h : k' = a <;> simp [JSObject.set, get_cons, h]
    · by_cases h : k' = k
      · subst h
        have hne : ¬ k' = a := fun e => ha e.symm
        simp [JSObject.set, get_cons, ha, hne, ih]
      · by_cases h2 : k' = a <;> simp [JSObject.set, get_cons, ha, h, h2, ih]

theorem objectKeys_set {α : Type} (o : JSObject α) (k : String) (v : α) :
    objectKeys (o.set k v) =
      if k ∈ objectKeys o then objectKeys o else objectKeys o ++ [k] := by
  induction o with
  | nil => simp [JSObject.set, objectKeys]
  | cons p rest ih =>
    obtain ⟨a, b⟩ := p
    simp only [objectKeys] at ih
    by_cases ha : a = k
    · subst ha
      simp [JSObject.set, objectKeys]
    · have hne : ¬ k = a := fun e => ha e.symm
      by_cases hmem : k ∈ List.map Prod.fst rest <;>
        simp [JSObject.set, objectKeys, ha, hne, hmem, ih]

theorem nodup_objectKeys_set {α : Type} (o : JSObject α) (k : String) (v : α)
    (h : (objectKeys o).Nodup) : (objectKeys (o.set k v)).Nodup := by
  rw [objectKeys_set]
  by_cases hmem : k ∈ objectKeys o
  · simpa [hmem] using h
  · simp only [hmem, if_false]
    exact List.Nodup.append h (List.nodup_singleton k) (by simpa using hmem)

theorem get_copyMetadataArg (args : Args) (source : JSObject ArgVal) (arg k : String) :
    (copyMetadataArg args source arg).get k =
      if k = arg ∧ truthy (args.get arg) = true then args.get arg else source.get k := by
  unfold copyMetadataArg
  cases hget : args.get arg with
  | none => simp [truthy]
  | some v =>
    cases hv : v.truthy with
    | false => simp [truthy, hv]
    | true =>
      by_cases hk : k = arg <;> simp [truthy, hv, get_set, hk]

theorem get_foldl_copyMetadataArg (args : Args) (keys : List String)
    (source : JSObject ArgVal) (k : String) :
    (keys.foldl (copyMetadataArg args) source).get k =
      if k ∈ keys ∧ truthy (args.get k) = true then args.get k else source.get k := by
  induction keys generalizing source with
  | nil => simp
  | cons a rest ih =>
    rw [List.foldl_cons, ih, get_copyMetadataArg]
    by_cases hrest : k ∈ rest
    · by_cases ht : truthy (args.get k) = true
      · simp [hrest, ht]
      · by_cases hka : k = a
        · subst hka
          simp [ht]
        · simp [hrest, ht, hka]
    · by_cases hka : k = a
      · subst hka
        simp [hrest]
      · simp [hrest, hka]

theorem nodup_foldl_copyMetadataArg (args : Args) (keys : List String)
    (source : JSObject ArgVal) (h : (objectKeys source).Nodup) :
    (objectKeys (keys.foldl (copyMetadataArg args) source)).Nodup := by
  induction keys generalizing source with
  | nil => simpa using h
  | cons a rest ih =>
    rw [List.foldl_cons]
    apply ih
    unfold copyMetadataArg
    cases args.get a with
    | none => exact h
    | some v =>
      cases hv : v.truthy with
      | false => simpa [hv] using h
      | true => simpa [hv] using nodup_objectKeys_set source a v h

theorem main_publishCalls (env : Env) (world : World) (args : Args)
    (hv : validate args = none) :
    (main env world args).publishCalls = [publishRequest args] := by
  cases hp : world.publishResult with
  | error e => rw [main_publish_error env world args e hv hp]
  | ok handle =>
    cases hpoll : truthy (args.get "poll") with
    | false => rw [main_no_poll env world args handle hv hp hpoll]
    | true => exact (main_poll env world args handle hv hp hpoll).2.2.1

/-! ## Claim on the metadata record -/

/-- C6, counterexample: `--pr_id=0` supplies `pr_id`, and the record passed to
`publish` holds the `format` key only. -/
theorem metadata_omits_zero_pr_id :
    prIdZeroArgs.get "pr_id" = some (.scalar (.num (.fin 0 0))) ∧
    validate prIdZeroArgs = none ∧
    (main plainEnv (worldOf []) prIdZeroArgs).publishCalls.map
        (fun request => request.metadataSource) =
      [[("format", .scalar (.str "Terraform"))]] := by
  decide

/-- C6, amended: in every run that reaches `publish`, `publish` is called once
and the read of key `k` on its `metadata.source` record gives the value of
argument `k` when `k` is one of the nine metadata arguments and that value is
truthy (supplied, and not `0`, the empty string or `false`), gives `Terraform`
for `format` otherwise, and gives nothing for any other key; no key occurs
twice. -/
theorem metadata_exact_keys (env : Env) (world : World) (args : Args)
    (hv : validate args = none) :
    ∃ request : PublishRequest,
      (main env world args).publishCalls = [request] ∧
      (objectKeys request.metadataSource).Nodup ∧
      ∀ k : String,
        request.metadataSource.get k =
          if k ∈ optionalMetadataArgs ∧ truthy (args.get k) = true then args.get k
          else if k = "format" then some (.scalar (.str "Terraform"))
          else none := by
  refine ⟨publishRequest args, main_publishCalls env world args hv, ?_, ?_⟩
  · exact nodup_foldl_copyMetadataArg args optionalMetadataArgs _ (by decide)
  · intro k
    show (metadataSource args).get k = _
    unfold metadataSource
    rw [get_foldl_copyMetadataArg]
    by_cases hk : k = "format" <;> simp [get_cons, get_nil, hk]

/-- C6, witness: a run with a branch, a commit hash and a format override. -/
theorem metadata_exact_keys_witness :
    ∃ request : PublishRequest,
      (main plainEnv (worldOf []) provenanceArgs).publishCalls = [request] ∧
      (objectKeys request.metadataSource).Nodup ∧
      ∀ k : String,
        request.metadataSource.get k =
          if k ∈ optionalMetadataArgs ∧ truthy (provenanceArgs.get k) = true then
            provenanceArgs.get k
          else if k = "format" then some (.scalar (.str "Terraform"))
          else none :=
  metadata_exact_keys plainEnv (worldOf []) provenanceArgs (by decide)

/-! ## Claims on the non-polling notice, on failures and on the poll settings -/

/-- C7: a run that passes validation, whose `publish` resolves and whose
`poll` argument is falsy prints the fixed notice once and nothing else, with
the link `https://` + hostname + `/w/` + customerId + `/simulations/` +
eventId, calls `poll` not at all and ends with exit code 0.  The hostname
enters the link as JavaScript writes the parsed value: a string as itself, a
number by the number-to-text conversion, a boolean as `true` or `false`, an
array as its elements joined with commas; the parsed hostname is one of these.
With the same hostname and handle, the callback of a polled run hands the same
link to the Markdown generator and to the terminal report. -/
theorem notice_link_format (env : Env) (world : World) (args : Args) (handle : Handle)
    (hv : validate args = none) (hp : world.publishResult = .ok handle)
    (hpoll : truthy (args.get "poll") = false) :
    ∃ hostname : String,
      (main env world args).stdout =
        ["An execution simulation has been generated by **Lightlytics**, to view this run impact analysis, Visit:\n" ++
          ("https://" ++ hostname ++ "/w/" ++ handle.customerId ++ "/simulations/" ++
            handle.eventId) ++
          "\n\n> _This comment was added automatically by a git workflow to help DevOps teams predict what will be the impact of the proposed change after completing this PR_"] ∧
      (main env world args).stderr = [] ∧
      (main env world args).pollCalls = [] ∧
      (main env world args).exitCode = 0 ∧
      ((∃ s : String, args.get "hostname" = some (.scalar (.str s)) ∧ hostname = s) ∨
       (∃ n : JSNum, args.get "hostname" = some (.scalar (.num n)) ∧
          hostname = env.numToString n) ∨
       (args.get "hostname" = some (.scalar (.bool true)) ∧ hostname = "true") ∨
       (∃ vs : List Scalar, args.get "hostname" = some (.arr vs) ∧
          hostname =
            String.intercalate ","
              (vs.map (fun v =>
                match v with
                | .str s => s
                | .num n => env.numToString n
                | .bool b => if b then "true" else "false")))) ∧
      (∀ (markdownArgs : Args) (status : Status) (violations : Option (List Violation)),
        markdownArgs.get "hostname" = args.get "hostname" →
        truthyStr status.conclusion = true →
        (onStatusUpdate env markdownArgs (markdownArgs.get "hostname") handle.customerId
          handle.eventId status violations).printed =
          if truthy (markdownArgs.get "markdown") then
            [env.getMarkdownComment status violations
              ("https://" ++ hostname ++ "/w/" ++ handle.customerId ++ "/simulations/" ++
                handle.eventId)]
          else
            printCLI env status violations
              ("https://" ++ hostname ++ "/w/" ++ handle.customerId ++ "/simulations/" ++
                handle.eventId)) := by
  have helem : (fun v : Scalar =>
      match v with
      | .str s => s
      | .num n => env.numToString n
      | .bool b => if b then "true" else "false") = Scalar.toStr env := by
    funext v
    cases v <;> rfl
  have hhost : truthy (args.get "hostname") = true := hostname_truthy_of_validate args hv
  refine ⟨toStr env (args.get "hostname"), ?_, ?_, ?_, ?_, ?_, ?_⟩
  · rw [main_no_poll env world args handle hv hp hpoll]
    rfl
  · rw [main_no_poll env world args handle hv hp hpoll]
  · rw [main_no_poll env world args handle hv hp hpoll]
  · rw [main_no_poll env world args handle hv hp hpoll]
  · cases hget : args.get "hostname" with
    | none =>
      rw [hget] at hhost
      exact absurd hhost (by simp [truthy])
    | some value =>
      cases value with
      | scalar v =>
        cases v with
        | str s => exact Or.inl ⟨s, rfl, rfl⟩
        | num n => exact Or.inr (Or.inl ⟨n, rfl, rfl⟩)
        | bool b =>
          cases b with
          | false =>
            rw [hget] at hhost
            exact absurd hhost (by simp [truthy, ArgVal.truthy, Scalar.truthy])
          | true => exact Or.inr (Or.inr (Or.inl ⟨rfl, rfl⟩))
      | arr vs =>
        refine Or.inr (Or.inr (Or.inr ⟨vs, rfl, ?_⟩))
        rw [helem]
        rfl
  · intro markdownArgs status violations hsame hc
    rw [onStatusUpdate_truthy _ _ _ _ _ _ _ hc, hsame]

/-- C7, witness: hostname `api.example.com`, customer `c1`, event `e1`, and
the same run with the hostname parsed to the number 8080. -/
theorem notice_link_format_witness :
    (main plainEnv (worldOf []) sampleArgs).stdout =
      ["An execution simulation has been generated by **Lightlytics**, to view this run impact analysis, Visit:\nhttps://api.example.com/w/c1/simulations/e1\n\n> _This comment was added automatically by a git workflow to help DevOps teams predict what will be the impact of the proposed change after completing this PR_"] ∧
    (main plainEnv (worldOf []) numericHostArgs).stdout =
      ["An execution simulation has been generated by **Lightlytics**, to view this run impact analysis, Visit:\nhttps://8080/w/c1/simulations/e1\n\n> _This comment was added automatically by a git workflow to help DevOps teams predict what will be the impact of the proposed change after completing this PR_"] := by
  have hget : sampleArgs.get "hostname" = some (.scalar (.str "api.example.com")) := by
    decide
  have hgetN : numericHostArgs.get "hostname" = some (.scalar (.num (.fin 8080 0))) := by
    decide
  constructor
  · obtain ⟨hostname, hout, _, _, _, hshape, _⟩ :=
      notice_link_format plainEnv (worldOf []) sampleArgs sampleHandle (by decide) rfl
        (by decide)
    have hname : hostname = "api.example.com" := by
      rcases hshape with ⟨s, hs, hh⟩ | ⟨n, hn, hh⟩ | ⟨hb, hh⟩ | ⟨vs, ha, hh⟩
      · rw [hget] at hs
        cases hs
        exact hh
      · rw [hget] at hn
        cases hn
      · rw [hget] at hb
        cases hb
      · rw [hget] at ha
        cases ha
    rw [hout, hname]
    rfl
  · obtain ⟨hostname, hout, _, _, _, hshape, _⟩ :=
      notice_link_format plainEnv (worldOf []) numericHostArgs sampleHandle (by decide) rfl
        (by decide)
    have hname : hostname = "8080" := by
      rcases hshape with ⟨s, hs, hh⟩ | ⟨n, hn, hh⟩ | ⟨hb, hh⟩ | ⟨vs, ha, hh⟩
      · rw [hgetN] at hs
        cases hs
      · rw [hgetN] at hn
        cases hn
        rw [hh]
        decide
      · rw [hgetN] at hb
        cases hb
      · rw [hgetN] at ha
        cases ha
    rw [hout, hname]
    rfl

/-- C8, counterexample: on a command line without any flag all four required
arguments are absent, and the one message sent to the error channel is the
`Expected at least 4 cli arguments` one, not a `Missing arg` message for any
required argument. -/
theorem too_few_args_message :
    (∀ requiredArg ∈ requiredArgs, noFlagArgs.get requiredArg = none) ∧
    (main plainEnv (worldOf []) noFlagArgs).stderr =
      ["Expected at least 4 cli arguments. usage: node index.js --dir=\"./working-dir\" --hostname=\"./api-Url\" --plan=\"./working-dir/plan.json\" --graph=\"./working-dir/graph.dot\" --token=\"collection-token\""] ∧
    (∀ requiredArg ∈ requiredArgs,
      (main plainEnv (worldOf []) noFlagArgs).stderr ≠ [missingArgMessage requiredArg]) := by
  decide

/-- C8, amended: when a required argument is absent, the run calls neither
`publish` nor `poll`, prints nothing to standard output and sends exactly one
message to the error channel: the usage text when `help` or `h` is truthy;
otherwise the `Expected at least 4 cli arguments` text when the parsed object
has at most four keys (the positional list `_` is one of them); otherwise the
`Missing arg` text naming the first required argument, in the order dir,
hostname, graph, token, whose value is absent or falsy. -/
theorem missing_required_arg (env : Env) (world : World) (args : Args)
    (requiredArg : String) (hr : requiredArg ∈ requiredArgs)
    (habsent : args.get requiredArg = none) :
    (main env world args).publishCalls = [] ∧
    (main env world args).pollCalls = [] ∧
    (main env world args).stdout = [] ∧
    ∃ first : String,
      requiredArgs.find? (fun r => !truthy (args.get r)) = some first ∧
      first ∈ requiredArgs ∧
      truthy (args.get first) = false ∧
      (main env world args).stderr =
        [if truthy (args.get "help") = true ∨ truthy (args.get "h") = true then helpMessage
         else if (objectKeys args).length ≤ 4 then tooFewMessage
         else missingArgMessage first] := by
  have hfalsy : (fun r => !truthy (args.get r)) requiredArg = true := by
    simp [habsent, truthy]
  cases hfind : requiredArgs.find? (fun r => !truthy (args.get r)) with
  | none =>
    rw [List.find?_eq_none] at hfind
    exact absurd hfalsy (hfind requiredArg hr)
  | some first =>
    have hmem : first ∈ requiredArgs := List.mem_of_find?_eq_some hfind
    have hfirst : truthy (args.get first) = false := by
      simpa using List.find?_some hfind
    have hvalid : validate args =
        some (if truthy (args.get "help") = true ∨ truthy (args.get "h") = true then
            helpMessage
          else if (objectKeys args).length ≤ 4 then tooFewMessage
          else missingArgMessage first) := by
      unfold validate
      rw [hfind]
      by_cases hhelp : truthy (args.get "help") = true ∨ truthy (args.get "h") = true
      · have hb : (truthy (args.get "help") || truthy (args.get "h")) = true := by
          simpa using hhelp
        rw [if_pos hb, if_pos hhelp]
      · have hb : ¬ (truthy (args.get "help") || truthy (args.get "h")) = true := by
          simpa using hhelp
        rw [if_neg hb, if_neg hhelp]
        by_cases hlen : (objectKeys args).length ≤ 4
        · have hlen' : (objectKeys args).length ≤ requiredArgs.length := hlen
          rw [if_pos hlen', if_pos hlen]
        · have hlen' : ¬ (objectKeys args).length ≤ requiredArgs.length := hlen
          rw [if_neg hlen', if_neg hlen]
    rw [main_invalid env world args _ hvalid]
    exact ⟨rfl, rfl, rfl, first, rfl, hmem, hfirst, rfl⟩

/-- C8, witness: five flags without `token`; the message names `token`. -/
theorem missing_required_arg_witness :
    (main plainEnv (worldOf []) noTokenArgs).publishCalls = [] ∧
    (main plainEnv (worldOf []) noTokenArgs).pollCalls = [] ∧
    (main plainEnv (worldOf []) noTokenArgs).stdout = [] ∧
    ∃ first : String,
      requiredArgs.find? (fun r => !truthy (noTokenArgs.get r)) = some first ∧
      first ∈ requiredArgs ∧
      truthy (noTokenArgs.get first) = false ∧
      (main plainEnv (worldOf []) noTokenArgs).stderr =
        [if truthy (noTokenArgs.get "help") = true ∨ truthy (noTokenArgs.get "h") = true then
           helpMessage
         else if (objectKeys noTokenArgs).length ≤ 4 then tooFewMessage
         else missingArgMessage first] :=
  missing_required_arg plainEnv (worldOf []) noTokenArgs "token" (by decide) (by decide)

/-- C9: when `publish` rejects in a run that passed validation, the error is
the one message sent to the error channel, `publish` has been called exactly
once, `poll` is not called, nothing is printed to standard output, and the
statuses and the failure `poll` would have produced play no part. -/
theorem publish_failure_is_fatal (env : Env) (world : World) (args : Args) (error : String)
    (hv : validate args = none) (hp : world.publishResult = .error error) :
    (main env world args).stderr = [error] ∧
    (main env world args).publishCalls.length = 1 ∧
    (main env world args).pollCalls = [] ∧
    (main env world args).stdout = [] := by
  rw [main_publish_error env world args error hv hp]
  exact ⟨rfl, rfl, rfl, rfl⟩

/-- C9, witness: a polled command line whose `publish` is rejected. -/
theorem publish_failure_is_fatal_witness :
    (main plainEnv failingWorld samplePollArgs).stderr =
        ["Error: Request failed with status code 401"] ∧
    (main plainEnv failingWorld samplePollArgs).publishCalls.length = 1 ∧
    (main plainEnv failingWorld samplePollArgs).pollCalls = [] ∧
    (main plainEnv failingWorld samplePollArgs).stdout = [] :=
  publish_failure_is_fatal plainEnv failingWorld samplePollArgs
    "Error: Request failed with status code 401" (by decide) rfl

/-- C10, counterexample: with `--pollTimeout=0 --pollInterval=0` the numbers
supplied are 0, and `poll` receives the timeout 10 and the interval 5000. -/
theorem zero_poll_settings_replaced :
    zeroPollArgs.get "pollTimeout" = some (.scalar (.num (.fin 0 0))) ∧
    zeroPollArgs.get "pollInterval" = some (.scalar (.num (.fin 0 0))) ∧
    (main plainEnv (worldOf []) zeroPollArgs).pollCalls.map
        (fun request => (request.pollTimeout, request.pollInterval)) =
      [(.fin 10 0, .fin 5000 0)] := by
  decide

/-- C10, amended: a polled run calls `poll` once; the timeout it passes is 10
when `pollTimeout` is absent or falsy (0 included) and is `Number` of the
argument otherwise, which for a non-zero number is that number; likewise the
interval is 5000 when `pollInterval` is absent or falsy and the supplied
non-zero number otherwise. -/
theorem poll_settings (env : Env) (world : World) (args : Args) (handle : Handle)
    (hv : validate args = none) (hp : world.publishResult = .ok handle)
    (hpoll : truthy (args.get "poll") = true) :
    ∃ request : PollRequest,
      (main env world args).pollCalls = [request] ∧
      (args.get "pollTimeout" = none → request.pollTimeout = .fin 10 0) ∧
      (args.get "pollInterval" = none → request.pollInterval = .fin 5000 0) ∧
      (truthy (args.get "pollTimeout") = false → request.pollTimeout = .fin 10 0) ∧
      (truthy (args.get "pollInterval") = false → request.pollInterval = .fin 5000 0) ∧
      (truthy (args.get "pollTimeout") = true →
        request.pollTimeout = jsNumber env (args.get "pollTimeout")) ∧
      (truthy (args.get "pollInterval") = true →
        request.pollInterval = jsNumber env (args.get "pollInterval")) ∧
      (∀ n : JSNum, args.get "pollTimeout" = some (.scalar (.num n)) → n.truthy = true →
        request.pollTimeout = n) ∧
      (∀ n : JSNum, args.get "pollInterval" = some (.scalar (.num n)) → n.truthy = true →
        request.pollInterval = n) := by
  refine ⟨pollRequest env args handle, (main_poll env world args handle hv hp hpoll).2.2.2,
    ?_, ?_, ?_, ?_, ?_, ?_, ?_, ?_⟩
  · intro h
    simp [pollRequest, h, truthy, pollTimeoutDefault, JSNum.ofNat]
  · intro h
    simp [pollRequest, h, truthy, pollIntervalDefault, JSNum.ofNat]
  · intro h
    simp [pollRequest, h, pollTimeoutDefault, JSNum.ofNat]
  · intro h
    simp [pollRequest, h, pollIntervalDefault, JSNum.ofNat]
  · intro h
    simp [pollRequest, h]
  · intro h
    simp [pollRequest, h]
  · intro n h hn
    simp [pollRequest, h, truthy, ArgVal.truthy, Scalar.truthy, hn, jsNumber]
  · intro n h hn
    simp [pollRequest, h, truthy, ArgVal.truthy, Scalar.truthy, hn, jsNumber]

/-- C10, witness: `--pollTimeout=3 --pollInterval=250` reach `poll` as 3 and
250. -/
theorem poll_settings_witness :
    (main plainEnv (worldOf []) customPollArgs).pollCalls.map
        (fun request => (request.pollTimeout, request.pollInterval)) =
      [(.fin 3 0, .fin 250 0)] := by
  obtain ⟨request, hcalls, _, _, _, _, _, _, ht, hi⟩ :=
    poll_settings plainEnv (worldOf []) customPollArgs sampleHandle (by decide) rfl
      (by decide)
  rw [hcalls, List.map_singleton,
    ht (.fin 3 0) (by decide) (by decide), hi (.fin 250 0) (by decide) (by decide)]

end Lightlytics
